import Mathlib

/-!
Verification of the SWANSIM simulation engine against its specification.

The Python sources under backend/ are shallowly embedded over the rationals:
floating-point arithmetic is modelled by exact arithmetic on ℚ, Python
int() truncation by truncation toward zero on ℚ, numpy clip by a min/max
combination, and the transcendental functions (tanh, log) and all random
draws (shuffles, Gaussian noise, shock triggers) are passed in as explicit
parameters, since no verified property depends on their values.
Python attribute errors (reading an attribute that was never assigned) are
modelled by Option-valued fields and Option-valued results.
-/

set_option maxRecDepth 4000

/-- numpy clip: clip lo hi x pins x to the interval from lo to hi. -/
def clip (lo hi x : ℚ) : ℚ := min (max x lo) hi

/-- Python int() applied to a float: truncation toward zero.
For a rational this is Int.div of numerator by denominator. -/
def pyInt (q : ℚ) : ℤ := Int.tdiv q.num q.den

/-- Python prefix slicing l[:k] with an arbitrary (possibly negative) k. -/
def pySlice (l : List α) (k : ℤ) : List α :=
  if 0 ≤ k then l.take k.toNat else l.take ((l.length : ℤ) + k).toNat

/-!  Data model: agents/firms.py, agents/households.py, state.py  -/

/-- FirmAgent (backend/simulation/agents/firms.py).
The debt attribute is Option-valued because FirmAgent.__init__ never
assigns it: none models the attribute being absent from the object.
desired_labor, revenue and wage_bill are likewise first assigned only in
FirmAgent.step; they are modelled as plain fields initialised to 0. -/
structure Firm where
  archetype : String
  capital : ℚ
  employees : ℤ
  desired_labor : ℤ
  production : ℚ
  price : ℚ
  debt : Option ℚ
  alive : Bool
  productivity : ℚ
  pricing_power : ℚ
  credit_cost : ℚ
  revenue : ℚ
  wage_bill : ℚ
deriving DecidableEq

/-- FirmAgent.__init__: archetype-keyed initial capital and coefficients. -/
def FirmAgent.init (archetype : String) : Firm :=
  { archetype := archetype
    capital :=
      if archetype = "startup" then 1000
      else if archetype = "sme" then 10000
      else 100000
    employees := 0
    desired_labor := 0
    production := 0
    price := 10
    debt := none
    alive := true
    productivity :=
      if archetype = "startup" then 0.8
      else if archetype = "sme" then 1 else 1.3
    pricing_power :=
      if archetype = "startup" then 0.9
      else if archetype = "sme" then 1 else 1.2
    credit_cost :=
      if archetype = "startup" then 0.1
      else if archetype = "sme" then 0.06 else 0.03
    revenue := 0
    wage_bill := 0 }

/-- The market_conditions dict passed to FirmAgent.step.  The orchestrator
(env.py step, phase 3) omits the shock_multiplier key, whose .get default
is 1. -/
structure MarketConditions where
  demand : ℚ
  wage : ℚ
  inflation : ℚ
  shock_multiplier : ℚ
deriving DecidableEq

/-- The sub-expression of FirmAgent.step that the source binds to
labor_required: int(expected_demand / productivity) where
expected_demand = max(demand, 100) * shock * productivity. -/
def firm_labor_required (f : Firm) (mc : MarketConditions) : ℤ :=
  pyInt (max mc.demand 100 * mc.shock_multiplier * f.productivity / f.productivity)

/-- FirmAgent.step: price and desired-labor decision; dead firms
short-circuit to zero labor and production. -/
def FirmAgent.step (f : Firm) (mc : MarketConditions) : Firm :=
  if f.alive = false then
    { f with desired_labor := 0, production := 0 }
  else
    let max_labor_budget := f.capital / max mc.wage 1
    { f with
      desired_labor := min (firm_labor_required f mc) (pyInt max_labor_budget)
      price := f.price * (1 + mc.inflation * 0.5 * f.pricing_power)
      revenue := 0
      wage_bill := 0 }

/-- FirmAgent.produce: employees matched by the labor market become output. -/
def FirmAgent.produce (f : Firm) : Firm :=
  { f with production := (f.employees : ℚ) * f.productivity }

/-- FirmAgent.post_market_step: profit settlement and the bankruptcy
transition (capital < 0 after settlement kills the firm and freezes
employees and production at zero). -/
def FirmAgent.post_market_step (f : Firm) : Firm :=
  if f.alive = false then f
  else
    let capital_cost := f.capital * f.credit_cost
    let profit := f.revenue - f.wage_bill - capital_cost
    let capital2 := f.capital + profit
    if capital2 < 0 then
      { f with capital := capital2, alive := false, employees := 0, production := 0 }
    else
      { f with capital := capital2 }

/-- HouseholdAgent state touched by the market mechanism
(backend/simulation/agents/households.py). -/
structure Household where
  wealth : ℚ
  consumption : ℚ
  savings : ℚ
  unrest : ℚ
  employed : Bool
deriving DecidableEq

/-- EconomicState (backend/simulation/state.py). -/
structure EconState where
  gdp : ℚ
  gdp_last : ℚ
  gdp_growth : ℚ
  inflation : ℚ
  unemployment : ℚ
  interest_rate : ℚ
  tax_rate : ℚ
  gini_coeff : ℚ
  wage_index : ℚ
  price_index : ℚ
  avg_unrest : ℚ
  top1_wealth_share : ℚ
  welfare_spending : ℚ
  capital_controls : ℚ
  regime : String
deriving DecidableEq

/-- EconomicState defaults from the dataclass field initialisers. -/
def EconState.default : EconState :=
  { gdp := 0, gdp_last := 0, gdp_growth := 0, inflation := 0, unemployment := 0
    interest_rate := 0.05, tax_rate := 0.2, gini_coeff := 0, wage_index := 1
    price_index := 1, avg_unrest := 0, top1_wealth_share := 0
    welfare_spending := 0, capital_controls := 0, regime := "stable" }

/-!  Market mechanism: backend/simulation/economics/markets.py  -/

/-- Total labor demand: sum of firm desired_labor (an integer sum that can
be negative when capital-constrained firms carry negative labor budgets). -/
def laborDemand (fs : List Firm) : ℤ := (fs.map (·.desired_labor)).sum

/-- The household updates of clear_labor_market: the first k households of
the (already shuffled) list are marked employed and paid the wage, every
other household is marked unemployed with wealth untouched. -/
def markEmployed (wage : ℚ) : ℕ → List Household → List Household
  | _, [] => []
  | 0, h :: t => { h with employed := false } :: markEmployed wage 0 t
  | k + 1, h :: t =>
      { h with employed := true, wealth := h.wealth + wage } :: markEmployed wage k t

/-- The firm updates of clear_labor_market: realized employees are the
firm's desired-labor share of matched employment, wage bill follows. -/
def assignEmployees (wage : ℚ) (employed labor_demand : ℤ) (f : Firm) : Firm :=
  let emp := pyInt (((f.desired_labor * employed : ℤ) : ℚ) / ((max labor_demand 1 : ℤ) : ℚ))
  { f with employees := emp, wage_bill := (emp : ℚ) * wage }

/-- MarketMechanism.clear_labor_market.  tanh is the real hyperbolic
tangent, passed as a parameter; shuffled is the household list after the
in-place np.random.shuffle.  Returns (wage, unemployment_rate, households,
firms).  The employed-household prefix follows Python slice semantics
(households[:employed] with employed possibly negative). -/
def clear_labor_market (base_wage wage_adjustment : ℚ) (tanh : ℚ → ℚ)
    (shuffled : List Household) (fs : List Firm) :
    ℚ × ℚ × List Household × List Firm :=
  let labor_supply : ℕ := shuffled.length
  let labor_demand : ℤ := laborDemand fs
  let excess_demand : ℚ := (labor_demand : ℚ) - (labor_supply : ℚ)
  let wage := base_wage * (1 + wage_adjustment * tanh (excess_demand / max (labor_supply : ℚ) 1))
  let employed : ℤ := min (labor_supply : ℤ) labor_demand
  let unemployment_rate : ℚ := 1 - (employed : ℚ) / (labor_supply : ℚ)
  let k : ℕ := (pySlice shuffled employed).length
  (wage, unemployment_rate, markEmployed wage k shuffled,
    fs.map (assignEmployees wage employed labor_demand))

/-- The per-firm body of MarketMechanism.clear_credit_market.  A firm with
negative capital seeks credit; the augmented assignment on f.debt reads the
debt attribute first, so an unassigned debt attribute (none) raises
AttributeError, modelled as none. -/
def clear_credit_market_firm (max_leverage interest_rate : ℚ) (f : Firm) : Option Firm :=
  if f.capital < 0 then
    let desired_credit := |f.capital|
    let max_credit := max_leverage * max (f.capital + desired_credit) 1
    let granted_credit := min desired_credit max_credit
    let repayment := granted_credit * (1 + interest_rate)
    match f.debt with
    | none => none
    | some d =>
        some { f with capital := f.capital + granted_credit, debt := some (d + repayment) }
  else
    some f

/-- MarketMechanism.clear_credit_market over the firm list; the first
raised AttributeError aborts the whole call. -/
def clear_credit_market (max_leverage interest_rate : ℚ) :
    List Firm → Option (List Firm)
  | [] => some []
  | f :: t =>
      match clear_credit_market_firm max_leverage interest_rate f with
      | none => none
      | some f2 =>
          match clear_credit_market max_leverage interest_rate t with
          | none => none
          | some t2 => some (f2 :: t2)

/-!  Inequality metrics: backend/simulation/economics/inequality.py  -/

/-- np.sort descending (np.sort ascending followed by reversal). -/
def sortDesc (l : List ℚ) : List ℚ := l.insertionSort (fun a b => b ≤ a)

/-- np.sort ascending. -/
def sortAsc (l : List ℚ) : List ℚ := l.insertionSort (fun a b => a ≤ b)

/-- InequalityMetrics.calculate_gini. -/
def calculate_gini (incomes : List ℚ) : ℚ :=
  if incomes = [] then 0
  else if incomes.all (· = 0) then 0
  else
    let sorted := sortAsc incomes
    let n : ℕ := sorted.length
    let weighted := (List.range n).zip sorted |>.map
      (fun p => ((2 * (p.1 + 1) : ℤ) - (n : ℤ) - 1 : ℚ) * p.2)
    clip 0 1 (weighted.sum / ((n : ℚ) * sorted.sum))

/-- InequalityMetrics.calculate_wealth_share: share of total wealth held by
the top percentile, k = max(1, ceil(n * top_percentile)) agents of the
descending sort, clipped to the unit interval. -/
def calculate_wealth_share (wealths : List ℚ) (top_percentile : ℚ) : ℚ :=
  if wealths = [] then 0
  else
    let total_wealth := wealths.sum
    if total_wealth ≤ 0 then 0
    else
      let k : ℤ := max 1 ⌈(wealths.length : ℚ) * top_percentile⌉
      let top_wealth := ((sortDesc wealths).take k.toNat).sum
      clip 0 1 (top_wealth / total_wealth)

/-!  Reward functions: backend/rl/rewards.py  -/

/-- RewardFunctions.household_reward with its default coefficients;
log is the natural logarithm, passed as a parameter. -/
def household_reward (log : ℚ → ℚ)
    (consumption inflation unemployment_risk unrest_exposure : ℚ)
    (alpha beta gamma : ℚ) : ℚ :=
  let consumption2 := max consumption (1 / 1000000)
  let inflation2 := clip 0 1 inflation
  let unemployment_risk2 := clip 0 1 unemployment_risk
  let unrest_exposure2 := clip 0 1 unrest_exposure
  let utility := log consumption2
  let penalty := alpha * inflation2 + beta * unemployment_risk2
      + gamma * unrest_exposure2 ^ 2
  clip (-5) 5 (utility - penalty)

/-- RewardFunctions.government_reward with its clipping and the collapse
proximity penalty. -/
def government_reward (gdp_growth inflation unemployment unrest inequality : ℚ)
    (alpha beta gamma delta : ℚ) : ℚ :=
  let gdp_growth2 := clip (-0.25) 0.25 gdp_growth
  let inflation2 := clip 0 1 inflation
  let unemployment2 := clip 0 1 unemployment
  let unrest2 := clip 0 1 unrest
  let inequality2 := clip 0 1 inequality
  let reward := gdp_growth2 - alpha * inflation2 - beta * unemployment2
      - gamma * unrest2 ^ 2 - delta * inequality2
  let reward2 := if 0.85 < unrest2 ∧ 0.6 < inequality2 then reward - 2 else reward
  clip (-5) 5 reward2

/-!  HouseholdAgent.compute_reward: agents/households.py lines 64-83.

The source invokes RewardFunctions.household_reward with the keyword
arguments consumption_utility, inflation, unemployment and unrest_exposure.
Python binds keyword arguments by parameter name; a keyword that matches no
parameter of the callee raises TypeError before the body runs.  The
keyword-binding step is embedded explicitly below.  -/

/-- The parameter names of RewardFunctions.household_reward. -/
def household_reward_params : List String :=
  ["consumption", "inflation", "unemployment_risk", "unrest_exposure",
   "alpha", "beta", "gamma"]

/-- The keyword names used at the call site inside
HouseholdAgent.compute_reward. -/
def compute_reward_call_keywords : List String :=
  ["consumption_utility", "inflation", "unemployment", "unrest_exposure"]

/-- The Python call succeeds only when every supplied keyword names a
parameter of the callee. -/
def keywords_accepted : Bool :=
  compute_reward_call_keywords.all (fun k => household_reward_params.contains k)

/-- HouseholdAgent.compute_reward: reads inflation and unemployment from the
global state and delegates to RewardFunctions.household_reward through the
keyword call above; none models the TypeError raised when keyword binding
fails.  (Were the binding to succeed, the utility RewardFunctions.
utility_consumption(consumption) would flow into the consumption slot.) -/
def HouseholdAgent.compute_reward (log : ℚ → ℚ) (h : Household)
    (econ : EconState) (local_exposure : ℚ) : Option ℚ :=
  if keywords_accepted then
    some (household_reward log (log (max h.consumption (1 / 1000000)))
      econ.inflation econ.unemployment local_exposure 1 1.2 1.5)
  else
    none

/-!  GovernmentAgent: backend/simulation/agents/government.py  -/

/-- The household view read by GovernmentAgent._aggregate_unrest: the loop
accesses only h.size and h.unrest_level on each entry. -/
structure HouseholdView where
  size : ℚ
  unrest_level : ℚ
deriving DecidableEq

/-- GovernmentAgent._aggregate_unrest: population-weighted unrest,
accumulated by the source's running-total loop, clipped to the unit
interval; an empty household collection yields zero. -/
def aggregate_unrest (hs : List HouseholdView) : ℚ :=
  if hs = [] then 0
  else
    let totals := hs.foldl
      (fun (acc : ℚ × ℚ) h =>
        (acc.1 + max h.size 1, acc.2 + max h.size 1 * h.unrest_level))
      (0, 0)
    clip 0 1 (totals.2 / totals.1)

/-- GovernmentAgent.compute_reward: GDP growth against the remembered
previous GDP (None on a fresh agent), macro indicators from the state, and
the shared government reward; returns the reward together with the updated
previous-GDP memory. -/
def GovernmentAgent.compute_reward (prev_gdp : Option ℚ) (econ : EconState)
    (hs : List HouseholdView) : ℚ × Option ℚ :=
  let gdp_growth :=
    match prev_gdp with
    | none => 0
    | some p => (econ.gdp - p) / max p (1 / 1000000)
  let reward := government_reward gdp_growth econ.inflation econ.unemployment
    (aggregate_unrest hs) econ.gini_coeff 0.8 1.2 2 1
  (reward, some econ.gdp)

/-!  Shock manager: backend/simulation/shocks/shock_manager.py  -/

/-- ShockManager._apply_shock for type financial_crash: multiplies every
firm's capital by (1 - 8 s) and every household's wealth by (1 - 7 s), and
adds 40 s to the unemployment field, with no clipping anywhere. -/
def apply_financial_crash (severity : ℚ) (econ : EconState)
    (hs : List Household) (fs : List Firm) :
    EconState × List Household × List Firm :=
  ({ econ with unemployment := econ.unemployment + 40 * severity },
   hs.map (fun h => { h with wealth := h.wealth * (1 - 7 * severity) }),
   fs.map (fun f => { f with capital := f.capital * (1 - 8 * severity) }))

/-!  Social graph: backend/simulation/networks/social_graph.py  -/

/-- SocialGraph._clip. -/
def social_clip (x : ℚ) : ℚ := clip 0 1 x

/-- The body of the spread_influence loop for one node: isolated nodes only
clip their own value, otherwise the first-order diffusion update applies,
reading exclusively from the snapshot of input values.  noise i is the
realization of the Gaussian draw for node i. -/
def node_new_unrest (influence_strength decay : ℚ) (nbrs : ℕ → List ℕ)
    (states : ℕ → ℚ) (noise : ℕ → ℚ) (i : ℕ) : ℚ :=
  let ns := nbrs i
  let own_unrest := states i
  if ns = [] then social_clip own_unrest
  else
    let neighbor_unrest := (ns.map states).sum / (ns.length : ℚ)
    social_clip (own_unrest + influence_strength * (neighbor_unrest - own_unrest)
      - decay * own_unrest + noise i)

/-- SocialGraph.spread_influence: iterates over the node list, inserting
each node's new unrest into the (initially empty) result dictionary,
modelled as an association list built left to right. -/
def spread_influence (influence_strength decay : ℚ) (nodes : List ℕ)
    (nbrs : ℕ → List ℕ) (states : ℕ → ℚ) (noise : ℕ → ℚ) : List (ℕ × ℚ) :=
  nodes.foldl
    (fun acc i => acc ++ [(i, node_new_unrest influence_strength decay nbrs states noise i)])
    []

/-!  Orchestrator: backend/simulation/env.py  -/

/-- EconomicState.update_growth. -/
def update_growth (econ : EconState) : EconState :=
  let growth := if 0 < econ.gdp_last then (econ.gdp - econ.gdp_last) / econ.gdp_last else 0
  { econ with gdp_growth := growth, gdp_last := econ.gdp }

/-- BlackSwanEnv._update_macros: GDP from firm revenue, a clipped
random-walk nudge on inflation (randn is the Gaussian draw), unemployment
straight from the labor clearing, Gini and top-1% share from household
wealth, average unrest as the household mean, then growth bookkeeping. -/
def update_macros (randn : ℚ) (unemployment : ℚ) (wealths unrests revenues : List ℚ)
    (econ : EconState) : EconState :=
  update_growth
    { econ with
      gdp := revenues.sum
      inflation := clip 0 1 (econ.inflation + 0.01 * randn)
      unemployment := unemployment
      gini_coeff := calculate_gini wealths
      top1_wealth_share := calculate_wealth_share wealths 0.01
      avg_unrest := unrests.sum / (unrests.length : ℚ) }

/-- BlackSwanEnv._check_collapse: mutates regime to collapsed and reports
termination on the unrest-and-unemployment condition or on economic death;
otherwise leaves the state untouched. -/
def check_collapse (econ : EconState) : EconState × Bool :=
  if 0.7 < econ.avg_unrest ∧ 0.15 < econ.unemployment then
    ({ econ with regime := "collapsed" }, true)
  else if econ.gdp < 1 / 1000 then
    ({ econ with regime := "collapsed" }, true)
  else
    (econ, false)

/-- Phase 9 of BlackSwanEnv.step: terminated comes from the collapse check,
truncated from the step horizon (timestep is the already-incremented
counter). -/
def step_termination (timestep max_steps : ℕ) (econ : EconState) :
    EconState × Bool × Bool :=
  let c := check_collapse econ
  (c.1, c.2, decide (max_steps ≤ timestep))

/-!  ##  Concrete instances and auxiliary definitions used by the theorems  -/

/-- The scenario-1 market conditions: demand 100, wage 50, inflation 0,
shock multiplier 1. -/
def mcScenario1 : MarketConditions := ⟨100, 50, 0, 1⟩

/-- A startup firm right after a financial_crash shock of severity 0.5
multiplied its initial capital 1000 by (1 - 8 * 0.5) = -3: capital -3000,
debt attribute still unassigned (no code path ever assigns it). -/
def crashedFirm : Firm := { FirmAgent.init "startup" with capital := -3000 }

/-- The scenario-4 aggregates: average unrest 0.75, unemployment 0.2. -/
def econScenario4 : EconState :=
  { EconState.default with gdp := 10000, avg_unrest := 0.75, unemployment := 0.2 }

/-- A two-household population for the C5 witness. -/
def hvList : List HouseholdView := [⟨1, 0.9⟩, ⟨3, 0.9⟩]

/-- A concrete household used by several evaluations. -/
def house0 : Household :=
  { wealth := 100, consumption := 30, savings := 70, unrest := 0.2, employed := false }

/-- A rational stand-in for np.tanh, used only at inputs whose evaluated
outputs do not depend on the tanh value (wage-independent fields). -/
def tanh0 : ℚ → ℚ := fun _ => 0

/-- The goods-market writes to one firm (markets.py clear_goods_market):
the common price multiplier scales its price and the allocation rule sets
its revenue; both values are computed from the whole population and enter
here as the per-tick parameters price_mult and revenue. -/
def assignRevenue (price_mult revenue : ℚ) (f : Firm) : Firm :=
  { f with price := f.price * price_mult, revenue := revenue }

/-- The values the orchestrator's tick feeds to a single firm: the
market_conditions dict of phase 3 and the aggregate market outcomes of
phase 6 (matched employment, total labor demand, wage, goods price
multiplier, allocated revenue). -/
structure TickParams where
  mc : MarketConditions
  employed : ℤ
  labor_demand : ℤ
  wage : ℚ
  price_mult : ℚ
  revenue : ℚ
deriving DecidableEq

/-- One orchestrated tick projected onto a single firm, in the phase order
of BlackSwanEnv.step: step, labor-market employee assignment, produce,
goods-market settlement, post_market_step.  The credit market is omitted
here because it writes only capital and debt (see the credit conjunct of
the C7 theorem). -/
def firm_tick (p : TickParams) (f : Firm) : Firm :=
  FirmAgent.post_market_step
    (assignRevenue p.price_mult p.revenue
      (FirmAgent.produce
        (assignEmployees p.wage p.employed p.labor_demand
          (FirmAgent.step f p.mc))))

/-- A sequence of orchestrated ticks applied to one firm. -/
def firm_ticks : List TickParams → Firm → Firm
  | [], f => f
  | p :: ps, f => firm_ticks ps (firm_tick p f)

/-- A startup firm one settlement before bankruptcy: wage bill 1000
against revenue 0 on capital 100.  Settlement leaves capital -910 < 0, so
the firm dies with employees and production zeroed while desired_labor
keeps its stale value 20. -/
def preBankrupt : Firm :=
  { FirmAgent.init "startup" with
      capital := 100, desired_labor := 20, employees := 20, production := 16,
      wage_bill := 1000, revenue := 0 }

/-- The dead firm produced by the settlement above. -/
def deadFirm : Firm := FirmAgent.post_market_step preBankrupt

instance : IsTotal ℚ (fun a b => b ≤ a) := ⟨fun a b => le_total b a⟩

instance : IsTrans ℚ (fun a b => b ≤ a) :=
  ⟨fun _ _ _ hab hbc => le_trans hbc hab⟩

/-- A firm whose stale desired labor is the positive unit, for the C10
witness. -/
def firmOneLabor : Firm := { FirmAgent.init "sme" with desired_labor := 1 }

/-- A firm carrying negative desired labor, as planned by FirmAgent.step
mid-step once a shock has driven its capital negative (the same state that
makes the credit clearing of that step raise, see C2). -/
def firmNegLabor : Firm := { FirmAgent.init "sme" with desired_labor := -2 }

/-!  ##  Shared helper lemmas  -/

/-- A clip with ordered bounds lands inside them. -/
theorem clip_mem (lo hi x : ℚ) (h : lo ≤ hi) : lo ≤ clip lo hi x ∧ clip lo hi x ≤ hi := by
  unfold clip
  constructor
  · exact le_min (le_max_right x lo) h
  · exact min_le_right _ _

/-- A list of values at most zero sums to at most zero. -/
theorem list_sum_nonpos (l : List ℚ) (h : ∀ x ∈ l, x ≤ 0) : l.sum ≤ 0 := by
  induction l with
  | nil => simp
  | cons a t ih =>
      simp only [List.sum_cons]
      have ha := h a (List.mem_cons_self a t)
      have ht := ih (fun x hx => h x (List.mem_cons_of_mem a hx))
      linarith

/-- The mean of a nonempty list of unit-interval values is in the unit
interval. -/
theorem mean_mem_unit (l : List ℚ) (hne : l ≠ [])
    (hb : ∀ x ∈ l, 0 ≤ x ∧ x ≤ 1) :
    0 ≤ l.sum / (l.length : ℚ) ∧ l.sum / (l.length : ℚ) ≤ 1 := by
  have hlen : 0 < (l.length : ℚ) := by
    have : l.length ≠ 0 := fun h => hne (List.length_eq_zero.mp h)
    exact_mod_cast Nat.pos_of_ne_zero this
  constructor
  · exact div_nonneg (List.sum_nonneg fun x hx => (hb x hx).1) hlen.le
  · rw [div_le_one hlen]
    have := List.sum_le_card_nsmul l 1 (fun x hx => (hb x hx).2)
    simpa using this

/-!  ##  C1: firm labor decision on the scenario-1 inputs  -/

/-- Claim C1, counterexample: on the scenario-1 inputs the code computes
labor_required = 100, not 125: expected_demand is max(100,100) * 1 * 0.8
= 80 and dividing by productivity 0.8 cancels the factor, giving
int(100) = 100. -/
theorem C1_counterexample :
    firm_labor_required (FirmAgent.init "startup") mcScenario1 = 100 ∧
    firm_labor_required (FirmAgent.init "startup") mcScenario1 ≠ 125 := by
  norm_num [firm_labor_required, FirmAgent.init, mcScenario1, pyInt]

/-- Claim C1, amended: a startup firm with capital 1000 facing demand 100,
wage 50, inflation 0 and shock multiplier 1 computes labor_required = 100
(the productivity factors cancel) and desired_labor
= min(100, int(1000/50)) = min(100, 20) = 20. -/
theorem C1_amended :
    firm_labor_required (FirmAgent.init "startup") mcScenario1 = 100 ∧
    (FirmAgent.init "startup").capital = 1000 ∧
    pyInt ((1000 : ℚ) / 50) = 20 ∧
    (FirmAgent.step (FirmAgent.init "startup") mcScenario1).desired_labor = min 100 20 := by
  norm_num [FirmAgent.step, firm_labor_required, FirmAgent.init, mcScenario1, pyInt]

/-!  ##  C2: credit market on a firm with negative capital  -/

/-- Claim C2, code evaluation at the failing input: the freshly
constructed firm has no debt attribute, and clearing the credit market
over a negative-capital firm raises AttributeError (modelled as none)
when the augmented assignment reads f.debt — it does not return
normally. -/
theorem C2_attribute_error :
    (FirmAgent.init "startup").debt = none ∧
    crashedFirm.capital < 0 ∧
    clear_credit_market 3 (1 / 20) [crashedFirm] = none := by
  refine ⟨rfl, by norm_num [crashedFirm, FirmAgent.init], ?_⟩
  norm_num [clear_credit_market, clear_credit_market_firm, crashedFirm, FirmAgent.init]

/-!  ##  C3: HouseholdAgent.compute_reward always raises TypeError  -/

/-- Claim C3, code evaluation: the call inside HouseholdAgent.
compute_reward supplies the keywords consumption_utility and unemployment,
neither of which names a parameter of RewardFunctions.household_reward
(whose parameters are consumption and unemployment_risk), so Python raises
TypeError before the reward body runs: compute_reward never returns a
value, for any household, state, exposure, or logarithm realization. -/
theorem C3_compute_reward_raises (log : ℚ → ℚ) (h : Household)
    (econ : EconState) (local_exposure : ℚ) :
    HouseholdAgent.compute_reward log h econ local_exposure = none := by
  have hk : keywords_accepted = false := by decide
  simp [HouseholdAgent.compute_reward, hk]

/-!  ##  C4: collapse detection and termination flags  -/

/-- Claim C4: whenever the end-of-step aggregates satisfy
avg_unrest > 0.7 and unemployment > 0.15, or gdp < 1e-3, the step sets
the regime to collapsed and reports terminated = true; otherwise the state
is returned untouched with terminated = false; truncated is exactly the
step-horizon test. -/
theorem C4_collapse_termination (econ : EconState) (t m : ℕ) :
    (((0.7 < econ.avg_unrest ∧ 0.15 < econ.unemployment) ∨ econ.gdp < 1 / 1000) →
      (step_termination t m econ).1.regime = "collapsed" ∧
      (step_termination t m econ).2.1 = true) ∧
    (¬((0.7 < econ.avg_unrest ∧ 0.15 < econ.unemployment) ∨ econ.gdp < 1 / 1000) →
      (step_termination t m econ).1 = econ ∧
      (step_termination t m econ).2.1 = false) ∧
    ((step_termination t m econ).2.2 = true ↔ m ≤ t) := by
  unfold step_termination check_collapse
  by_cases h1 : 0.7 < econ.avg_unrest ∧ 0.15 < econ.unemployment
  · rw [if_pos h1]
    exact ⟨fun _ => ⟨rfl, rfl⟩, fun hn => absurd (Or.inl h1) hn, by simp⟩
  · by_cases h2 : econ.gdp < 1 / 1000
    · rw [if_neg h1, if_pos h2]
      exact ⟨fun _ => ⟨rfl, rfl⟩, fun hn => absurd (Or.inr h2) hn, by simp⟩
    · rw [if_neg h1, if_neg h2]
      exact ⟨fun hd => absurd (hd.resolve_left h1) h2, fun _ => ⟨rfl, rfl⟩, by simp⟩

/-- Claim C4, witness: at average unrest 0.75 and unemployment 0.2 the
step reports regime collapsed and terminated = true. -/
theorem C4_witness :
    (step_termination 1 500 econScenario4).1.regime = "collapsed" ∧
    (step_termination 1 500 econScenario4).2.1 = true :=
  (C4_collapse_termination econScenario4 1 500).1
    (Or.inl (by constructor <;> norm_num [econScenario4, EconState.default]))

/-!  ##  C5: government reward computation  -/

/-- The running-total loop of GovernmentAgent._aggregate_unrest computes
the two sums of the population-weighted average. -/
theorem aggregate_totals_eq (hs : List HouseholdView) (a b : ℚ) :
    hs.foldl
      (fun (acc : ℚ × ℚ) h =>
        (acc.1 + max h.size 1, acc.2 + max h.size 1 * h.unrest_level))
      (a, b)
    = (a + (hs.map (fun h => max h.size 1)).sum,
       b + (hs.map (fun h => max h.size 1 * h.unrest_level)).sum) := by
  induction hs generalizing a b with
  | nil => simp
  | cons h t ih => simp [ih, add_assoc]

/-- Claim C5: the government reward uses GDP growth (current - previous) /
previous, zero on a fresh agent with no prior GDP, feeds it with the
state's inflation, unemployment, inequality and the population-weighted
average household unrest into the shared government reward, whose collapse
proximity surcharge subtracts a fixed 2.0 whenever unrest > 0.85 and
inequality > 0.6 simultaneously. -/
theorem C5_government_reward (econ : EconState) (hs : List HouseholdView)
    (p : ℚ) (hp : 1 / 1000000 ≤ p) :
    (GovernmentAgent.compute_reward none econ hs).1
      = government_reward 0 econ.inflation econ.unemployment
          (aggregate_unrest hs) econ.gini_coeff 0.8 1.2 2 1 ∧
    (GovernmentAgent.compute_reward (some p) econ hs).1
      = government_reward ((econ.gdp - p) / p) econ.inflation econ.unemployment
          (aggregate_unrest hs) econ.gini_coeff 0.8 1.2 2 1 ∧
    (hs ≠ [] → aggregate_unrest hs
      = clip 0 1 ((hs.map (fun h => max h.size 1 * h.unrest_level)).sum
          / (hs.map (fun h => max h.size 1)).sum)) ∧
    (∀ g i u r q : ℚ, 0.85 < clip 0 1 r → 0.6 < clip 0 1 q →
      government_reward g i u r q 0.8 1.2 2 1
        = clip (-5) 5 (clip (-0.25) 0.25 g - 0.8 * clip 0 1 i - 1.2 * clip 0 1 u
            - 2 * (clip 0 1 r) ^ 2 - clip 0 1 q - 2)) := by
  refine ⟨rfl, ?_, ?_, ?_⟩
  · have hm : max p (1 / 1000000 : ℚ) = p := max_eq_left hp
    simp only [GovernmentAgent.compute_reward]
    rw [hm]
  · intro hne
    simp only [aggregate_unrest, if_neg hne, aggregate_totals_eq, zero_add]
  · intro g i u r q hr hq
    simp only [government_reward, if_pos (And.intro hr hq)]
    congr 1
    ring

/-- Claim C5, witness: at previous GDP 100 the growth slot carries
(gdp - 100) / 100. -/
theorem C5_witness :
    (GovernmentAgent.compute_reward (some 100) econScenario4 hvList).1
      = government_reward ((econScenario4.gdp - 100) / 100) econScenario4.inflation
          econScenario4.unemployment (aggregate_unrest hvList)
          econScenario4.gini_coeff 0.8 1.2 2 1 :=
  (C5_government_reward econScenario4 hvList 100 (by norm_num)).2.1

/-!  ##  C6: macro-aggregate invariants at the step boundary  -/

/-- calculate_gini always lands in the unit interval (the source clips, and
an empty or all-zero distribution short-circuits to 0). -/
theorem calculate_gini_mem (w : List ℚ) :
    0 ≤ calculate_gini w ∧ calculate_gini w ≤ 1 := by
  unfold calculate_gini
  split_ifs <;> first
    | exact ⟨le_refl 0, by norm_num⟩
    | exact clip_mem 0 1 _ (by norm_num)

/-- calculate_wealth_share always lands in the unit interval. -/
theorem calculate_wealth_share_mem (w : List ℚ) (p : ℚ) :
    0 ≤ calculate_wealth_share w p ∧ calculate_wealth_share w p ≤ 1 := by
  by_cases h1 : w = []
  · simp only [calculate_wealth_share, if_pos h1]
    norm_num
  · by_cases h2 : w.sum ≤ 0
    · simp only [calculate_wealth_share, if_neg h1, if_pos h2]
      norm_num
    · simp only [calculate_wealth_share, if_neg h1, if_neg h2]
      exact clip_mem 0 1 _ (by norm_num)

/-- Python int() of a nonnegative float is nonnegative. -/
theorem pyInt_nonneg (q : ℚ) (h : 0 ≤ q) : 0 ≤ pyInt q := by
  unfold pyInt
  obtain ⟨n, hn⟩ := Int.eq_ofNat_of_zero_le (Rat.num_nonneg.mpr h)
  rw [hn]
  have hred : Int.tdiv (Int.ofNat n) (Int.ofNat q.den) = Int.ofNat (n / q.den) := rfl
  exact hred ▸ Int.ofNat_nonneg _

/-- A firm whose capital is nonnegative when it plans never demands
negative labor: its labor requirement is nonnegative (the productivity
factors cancel) and so is its capital-derived labor budget. -/
theorem step_desired_labor_nonneg (f : Firm) (mc : MarketConditions)
    (hcap : 0 ≤ f.capital) (hshock : 0 ≤ mc.shock_multiplier) :
    0 ≤ (FirmAgent.step f mc).desired_labor := by
  unfold FirmAgent.step
  split_ifs with halive
  · exact le_refl 0
  · apply le_min
    · unfold firm_labor_required
      apply pyInt_nonneg
      by_cases hp : f.productivity = 0
      · rw [hp]
        simp
      · rw [mul_div_assoc, div_self hp, mul_one]
        exact mul_nonneg
          (le_trans (by norm_num : (0 : ℚ) ≤ 100) (le_max_right mc.demand 100)) hshock
    · apply pyInt_nonneg
      exact div_nonneg hcap
        (le_trans (by norm_num : (0 : ℚ) ≤ 1) (le_max_right mc.wage 1))

/-- When the credit clearing returns (no AttributeError was raised), every
firm in its input whose debt attribute is unassigned had nonnegative
capital: a negative-capital firm with no debt attribute makes the per-firm
clearing raise, aborting the whole call. -/
theorem credit_some_capital_nonneg (ml r : ℚ) (fs : List Firm)
    (hcc : clear_credit_market ml r fs ≠ none) :
    ∀ f ∈ fs, f.debt = none → 0 ≤ f.capital := by
  induction fs with
  | nil => intro f hf; simp at hf
  | cons a t ih =>
      intro f hf hdn
      by_cases hfirm : clear_credit_market_firm ml r a = none
      · exact absurd (by simp [clear_credit_market, hfirm]) hcc
      · rcases Option.ne_none_iff_exists'.mp hfirm with ⟨a2, ha2⟩
        have hrest : clear_credit_market ml r t ≠ none := by
          intro hnone
          exact hcc (by simp [clear_credit_market, ha2, hnone])
        rcases List.mem_cons.mp hf with rfl | hft
        · by_contra hneg
          push_neg at hneg
          apply hfirm
          unfold clear_credit_market_firm
          rw [if_pos hneg, hdn]
        · exact ih hrest f hft hdn

/-- Claim C6: at every completed step boundary the five macro aggregates
lie in [0,1].  A step completes only if phase 6's credit clearing returns,
and (C2) it raises on any firm whose capital is negative; since none of
the phases between the firms' planning and the credit clearing (employee
assignment, produce, goods settlement — abstracted as any per-firm map g
that preserves capital and debt, and the final conjunct proves the real
phases are such a map) writes capital or debt, completion forces every
planning firm's capital to be nonnegative, hence every desired_labor and
the aggregate labor demand are nonnegative and the stored unemployment
rate 1 - min(supply, demand)/supply lies in [0,1].  Inflation, Gini and
the top-1% share are explicitly clipped by the macro update, and average
unrest is the mean of the diffusion-clipped household values, so all
remain in [0,1] even when active shocks pushed the incoming state far
outside the unit interval earlier in the same step. -/
theorem C6_step_boundary (base adj : ℚ) (tanh : ℚ → ℚ) (mc : MarketConditions)
    (g : Firm → Firm) (ml r randn : ℚ)
    (fs0 : List Firm) (shuffled : List Household)
    (wealths unrests revenues : List ℚ) (econ : EconState)
    (hshock : 0 ≤ mc.shock_multiplier)
    (hdebt : ∀ f ∈ fs0, f.debt = none)
    (hg : ∀ f : Firm, (g f).capital = f.capital ∧ (g f).debt = f.debt)
    (hne : shuffled ≠ [])
    (hu : unrests ≠ []) (hub : ∀ x ∈ unrests, 0 ≤ x ∧ x ≤ 1)
    (hcc : clear_credit_market ml r
      ((fs0.map (fun f => FirmAgent.step f mc)).map g) ≠ none) :
    let stepped := fs0.map (fun f => FirmAgent.step f mc)
    let u := (clear_labor_market base adj tanh shuffled stepped).2.1
    let econ2 := update_macros randn u wealths unrests revenues econ
    ((0 ≤ econ2.inflation ∧ econ2.inflation ≤ 1) ∧
     (0 ≤ econ2.unemployment ∧ econ2.unemployment ≤ 1) ∧
     (0 ≤ econ2.gini_coeff ∧ econ2.gini_coeff ≤ 1) ∧
     (0 ≤ econ2.avg_unrest ∧ econ2.avg_unrest ≤ 1) ∧
     (0 ≤ econ2.top1_wealth_share ∧ econ2.top1_wealth_share ≤ 1)) ∧
    (∀ (w : ℚ) (e d : ℤ) (pm rv : ℚ) (f : Firm),
      (assignRevenue pm rv (FirmAgent.produce (assignEmployees w e d f))).capital
        = f.capital ∧
      (assignRevenue pm rv (FirmAgent.produce (assignEmployees w e d f))).debt
        = f.debt) := by
  intro stepped u econ2
  have hstep_cap : ∀ f : Firm, (FirmAgent.step f mc).capital = f.capital := by
    intro f
    unfold FirmAgent.step
    split_ifs <;> rfl
  have hstep_debt : ∀ f : Firm, (FirmAgent.step f mc).debt = f.debt := by
    intro f
    unfold FirmAgent.step
    split_ifs <;> rfl
  have hcap : ∀ f ∈ stepped, 0 ≤ f.capital := by
    intro f hf
    have hmem : g f ∈ stepped.map g := List.mem_map_of_mem g hf
    have hdn : (g f).debt = none := by
      rw [(hg f).2]
      rcases List.mem_map.mp hf with ⟨f0, hf0, rfl⟩
      rw [hstep_debt f0]
      exact hdebt f0 hf0
    have hres := credit_some_capital_nonneg ml r _ hcc (g f) hmem hdn
    rwa [(hg f).1] at hres
  have hld : 0 ≤ laborDemand stepped := by
    unfold laborDemand
    apply List.sum_nonneg
    intro x hx
    rcases List.mem_map.mp hx with ⟨f, hf, rfl⟩
    rcases List.mem_map.mp hf with ⟨f0, hf0, rfl⟩
    apply step_desired_labor_nonneg f0 mc _ hshock
    have hc := hcap _ hf
    rwa [hstep_cap f0] at hc
  have hlen : 0 < (shuffled.length : ℚ) := by
    have : shuffled.length ≠ 0 := fun h => hne (List.length_eq_zero.mp h)
    exact_mod_cast Nat.pos_of_ne_zero this
  have hu_val : u = 1 - ((min (shuffled.length : ℤ) (laborDemand stepped) : ℤ) : ℚ)
      / (shuffled.length : ℚ) := rfl
  have hmin_lb : (0 : ℤ) ≤ min (shuffled.length : ℤ) (laborDemand stepped) :=
    le_min (Int.ofNat_nonneg _) hld
  have hmin_ub : min (shuffled.length : ℤ) (laborDemand stepped) ≤ (shuffled.length : ℤ) :=
    min_le_left _ _
  have hfrac_lb : (0 : ℚ) ≤ ((min (shuffled.length : ℤ) (laborDemand stepped) : ℤ) : ℚ)
      / (shuffled.length : ℚ) := by
    apply div_nonneg _ hlen.le
    exact_mod_cast hmin_lb
  have hfrac_ub : ((min (shuffled.length : ℤ) (laborDemand stepped) : ℤ) : ℚ)
      / (shuffled.length : ℚ) ≤ 1 := by
    rw [div_le_one hlen]
    exact_mod_cast hmin_ub
  refine ⟨⟨clip_mem 0 1 _ (by norm_num), ⟨?_, ?_⟩, calculate_gini_mem wealths,
    mean_mem_unit unrests hu hub, calculate_wealth_share_mem wealths 0.01⟩,
    fun w e d pm rv f => ⟨rfl, rfl⟩⟩
  · rw [show econ2.unemployment = u from rfl, hu_val]; linarith
  · rw [show econ2.unemployment = u from rfl, hu_val]; linarith

/-- A singleton credit clearing over a firm with nonnegative capital
returns. -/
theorem credit_market_singleton_returns (ml r : ℚ) (f : Firm)
    (h : ¬ f.capital < 0) : clear_credit_market ml r [f] ≠ none := by
  simp [clear_credit_market, clear_credit_market_firm, h]

/-- Claim C6, witness: a completed step — one firm with capital 10000, so
the credit clearing returns — starting from a state whose inflation 25 and
unemployment 20 still carry the unclipped increments of an active shock;
all five end-of-step aggregates land in [0,1]. -/
theorem C6_step_boundary_witness :
    let stepped := [FirmAgent.init "sme"].map
      (fun f => FirmAgent.step f ⟨10000, 50, 0, 1⟩)
    let u := (clear_labor_market 50 0.1 tanh0 [house0] stepped).2.1
    let econ2 := update_macros 0 u [100] [0.5] [10]
      { EconState.default with inflation := 25, unemployment := 20 }
    (0 ≤ econ2.inflation ∧ econ2.inflation ≤ 1) ∧
    (0 ≤ econ2.unemployment ∧ econ2.unemployment ≤ 1) ∧
    (0 ≤ econ2.gini_coeff ∧ econ2.gini_coeff ≤ 1) ∧
    (0 ≤ econ2.avg_unrest ∧ econ2.avg_unrest ≤ 1) ∧
    (0 ≤ econ2.top1_wealth_share ∧ econ2.top1_wealth_share ≤ 1) :=
  (C6_step_boundary 50 0.1 tanh0 ⟨10000, 50, 0, 1⟩
    (fun f => assignRevenue 1 0 (FirmAgent.produce (assignEmployees 50 1 1 f)))
    3 (1 / 20) 0 [FirmAgent.init "sme"] [house0] [100] [0.5] [10]
    { EconState.default with inflation := 25, unemployment := 20 }
    (by norm_num)
    (by intro f hf; simp at hf; subst hf; rfl)
    (fun f => ⟨rfl, rfl⟩)
    (by simp)
    (by simp)
    (by intro x hx; simp at hx; subst hx; norm_num)
    (by
      simp only [List.map_cons, List.map_nil]
      apply credit_market_singleton_returns
      have h : (assignRevenue 1 0 (FirmAgent.produce (assignEmployees 50 1 1
          (FirmAgent.step (FirmAgent.init "sme") ⟨10000, 50, 0, 1⟩)))).capital
            = 10000 := rfl
      rw [h]
      norm_num)).1

/-!  ##  C7: irreversibility of firm bankruptcy  -/

/-- One tick on a dead firm zeroes labor demand, employees and production
and leaves the firm dead, whatever the market outcomes are. -/
theorem firm_tick_dead (p : TickParams) (f : Firm) (h : f.alive = false) :
    (firm_tick p f).alive = false ∧ (firm_tick p f).employees = 0 ∧
    (firm_tick p f).production = 0 := by
  simp [firm_tick, FirmAgent.step, h, assignEmployees, pyInt, FirmAgent.produce,
    assignRevenue, FirmAgent.post_market_step]

/-- Claim C7, amended: within the orchestrator's per-tick phase order a
dead firm stays dead with employees and production frozen at zero for
every subsequent sequence of ticks, and the credit market never touches
the alive flag, the employee count or the production of any firm it
returns.  (The claim's stronger reading over arbitrary out-of-order call
sequences fails: see the counterexample, where a bare labor clearing
re-populates a dead firm's employees from its stale desired_labor.) -/
theorem C7_amended (f : Firm) (ps : List TickParams)
    (h1 : f.alive = false) (h2 : f.employees = 0) (h3 : f.production = 0) :
    ((firm_ticks ps f).alive = false ∧ (firm_ticks ps f).employees = 0 ∧
      (firm_ticks ps f).production = 0) ∧
    (∀ ml r : ℚ, ∀ g g2 : Firm, clear_credit_market_firm ml r g = some g2 →
      g2.alive = g.alive ∧ g2.employees = g.employees ∧ g2.production = g.production) := by
  constructor
  · induction ps generalizing f with
    | nil => exact ⟨h1, h2, h3⟩
    | cons p rest ih =>
        have hd := firm_tick_dead p f h1
        exact ih (firm_tick p f) hd.1 hd.2.1 hd.2.2
  · intro ml r g g2 hg
    unfold clear_credit_market_firm at hg
    by_cases hc : g.capital < 0
    · rw [if_pos hc] at hg
      cases hdebt : g.debt with
      | none => rw [hdebt] at hg; exact absurd hg (by simp)
      | some d =>
          rw [hdebt] at hg
          simp only [Option.some.injEq] at hg
          subst hg
          exact ⟨rfl, rfl, rfl⟩
    · rw [if_neg hc] at hg
      simp only [Option.some.injEq] at hg
      subst hg
      exact ⟨rfl, rfl, rfl⟩

/-- Claim C7, witness for the amended statement: the dead firm survives a
further orchestrated tick with alive still false and employees and
production still zero. -/
theorem C7_witness :
    let f2 := firm_ticks [⟨⟨10000, 50, 0, 1⟩, 10, 20, 50, 1, 0⟩] { deadFirm with desired_labor := 0 }
    f2.alive = false ∧ f2.employees = 0 ∧ f2.production = 0 :=
  (C7_amended { deadFirm with desired_labor := 0 } [⟨⟨10000, 50, 0, 1⟩, 10, 20, 50, 1, 0⟩]
    (by norm_num [deadFirm, preBankrupt, FirmAgent.init, FirmAgent.post_market_step])
    (by norm_num [deadFirm, preBankrupt, FirmAgent.init, FirmAgent.post_market_step])
    (by norm_num [deadFirm, preBankrupt, FirmAgent.init, FirmAgent.post_market_step])).1

/-- Claim C7, counterexample to the literal claim: the settlement that
bankrupts the firm leaves its stale desired_labor = 20 in place, and a
subsequent bare labor-market clearing (a call sequence the claim
quantifies over) assigns the dead firm 10 employees again — employees do
not stay at zero under every sequence of market clearings. -/
theorem C7_counterexample :
    deadFirm.alive = false ∧ deadFirm.employees = 0 ∧ deadFirm.desired_labor = 20 ∧
    ((clear_labor_market 50 0.1 tanh0 (List.replicate 10 house0) [deadFirm]).2.2.2.map
      (fun f => f.employees)) = [10] ∧
    ((10 : ℤ) = 0 → False) := by
  refine ⟨?_, ?_, ?_, ?_, by norm_num⟩ <;>
    norm_num [deadFirm, preBankrupt, FirmAgent.init, FirmAgent.post_market_step,
      clear_labor_market, laborDemand, assignEmployees, pyInt, tanh0, house0]

/-!  ##  C8: wealth-share monotonicity in the percentile  -/

/-- For a descending-sorted list, capping the prefix sums at the total sum
makes them monotone in the prefix length: appending the next element either
increases the prefix sum (element nonnegative) or certifies that both
prefix sums already dominate the total (all remaining elements negative). -/
theorem min_take_sum_step (l : List ℚ) (hs : List.Sorted (fun a b => b ≤ a) l) (k : ℕ) :
    min ((l.take k).sum) l.sum ≤ min ((l.take (k + 1)).sum) l.sum := by
  induction l generalizing k with
  | nil => simp
  | cons a t ih =>
      cases k with
      | zero =>
          simp only [List.take_zero, List.sum_nil, List.take_succ_cons,
            List.sum_cons]
          rcases le_or_lt 0 a with ha | ha
          · exact min_le_min (by simpa using ha) le_rfl
          · have ht : ∀ x ∈ t, x ≤ a := List.rel_of_sorted_cons hs
            have hts : t.sum ≤ 0 :=
              list_sum_nonpos t (fun x hx => le_trans (ht x hx) ha.le)
            have h1 : a + t.sum ≤ 0 := by linarith
            have h2 : a + t.sum ≤ a := by linarith
            rw [min_eq_right h1]
            exact le_min (by linarith) le_rfl
      | succ k =>
          simp only [List.take_succ_cons, List.sum_cons]
          rw [min_add_add_left, min_add_add_left]
          exact add_le_add_left (ih hs.of_cons k) a

/-- Monotonicity of the capped prefix sums over any pair of lengths. -/
theorem min_take_sum_mono (l : List ℚ) (hs : List.Sorted (fun a b => b ≤ a) l)
    {k1 k2 : ℕ} (h : k1 ≤ k2) :
    min ((l.take k1).sum) l.sum ≤ min ((l.take k2).sum) l.sum := by
  induction h with
  | refl => exact le_rfl
  | step h ih => exact le_trans ih (min_take_sum_step l hs _)

/-- Dividing by the positive total and clipping to the unit interval
preserves the order of the capped sums. -/
theorem clip_unit_div_mono (T x y : ℚ) (hT : 0 < T) (h : min x T ≤ min y T) :
    clip 0 1 (x / T) ≤ clip 0 1 (y / T) := by
  have key : ∀ z : ℚ, min (z / T) 1 = min z T / T := by
    intro z
    rcases le_total z T with hz | hz
    · rw [min_eq_left ((div_le_one hT).mpr hz), min_eq_left hz]
    · rw [min_eq_right ((one_le_div hT).mpr hz), min_eq_right hz, div_self hT.ne']
  have swap : ∀ v : ℚ, clip 0 1 v = max (min v 1) 0 := by
    intro v
    unfold clip
    rw [min_max_distrib_right, min_eq_left (by norm_num : (0 : ℚ) ≤ 1)]
  rw [swap, swap, key, key]
  exact max_le_max ((div_le_div_iff_of_pos_right hT).mpr h) le_rfl

/-- Claim C8: for a fixed wealth distribution (negative entries allowed)
the top-percentile wealth share is monotone non-decreasing in the
percentile, and an all-zero or empty distribution yields share 0.
Monotonicity survives negative wealths only thanks to the final unit-clip:
prefix sums over the descending sort are monotone once capped at the
(positive) total, because every prefix that has absorbed a negative entry
already exceeds the total. -/
theorem C8_wealth_share_monotone (w : List ℚ) (p1 p2 : ℚ) (hp : p1 ≤ p2) :
    calculate_wealth_share w p1 ≤ calculate_wealth_share w p2 ∧
    ((∀ x ∈ w, x = 0) → calculate_wealth_share w p1 = 0) ∧
    calculate_wealth_share [] p1 = 0 := by
  refine ⟨?_, ?_, by simp [calculate_wealth_share]⟩
  · by_cases h1 : w = []
    · simp [calculate_wealth_share, h1]
    · by_cases h2 : w.sum ≤ 0
      · simp [calculate_wealth_share, h1, h2]
      · have hT : 0 < w.sum := not_le.mp h2
        have hsorted : List.Sorted (fun a b => b ≤ a) (sortDesc w) :=
          List.sorted_insertionSort _ w
        have hsum : (sortDesc w).sum = w.sum :=
          (List.perm_insertionSort _ w).sum_eq
        have hk : (max 1 ⌈(w.length : ℚ) * p1⌉).toNat
            ≤ (max 1 ⌈(w.length : ℚ) * p2⌉).toNat := by
          apply Int.toNat_le_toNat
          apply max_le_max le_rfl
          exact Int.ceil_le_ceil (mul_le_mul_of_nonneg_left hp (by positivity))
        simp only [calculate_wealth_share, if_neg h1, if_neg h2]
        apply clip_unit_div_mono _ _ _ hT
        rw [← hsum]
        exact min_take_sum_mono (sortDesc w) hsorted hk
  · intro hz
    by_cases h1 : w = []
    · simp [calculate_wealth_share, h1]
    · have : w.sum = 0 := List.sum_eq_zero hz
      simp [calculate_wealth_share, h1, this]

/-- Claim C8, witness: a distribution with a negative entry, percentiles
1% and 66%. -/
theorem C8_witness :
    calculate_wealth_share [5, -2, 4] (1 / 100)
      ≤ calculate_wealth_share [5, -2, 4] (2 / 3) :=
  (C8_wealth_share_monotone [5, -2, 4] (1 / 100) (2 / 3) (by norm_num)).1

/-!  ##  C9: unrest diffusion bounds and snapshot semantics  -/

/-- The dictionary built by the spread_influence loop is exactly the node
list paired with the per-node snapshot update. -/
theorem spread_influence_eq_map (inf dec : ℚ) (nodes : List ℕ)
    (nbrs : ℕ → List ℕ) (states noise : ℕ → ℚ) :
    spread_influence inf dec nodes nbrs states noise
      = nodes.map (fun i => (i, node_new_unrest inf dec nbrs states noise i)) := by
  unfold spread_influence
  suffices h : ∀ acc : List (ℕ × ℚ),
      nodes.foldl
        (fun acc i => acc ++ [(i, node_new_unrest inf dec nbrs states noise i)]) acc
      = acc ++ nodes.map (fun i => (i, node_new_unrest inf dec nbrs states noise i)) by
    simpa using h []
  induction nodes with
  | nil => simp
  | cons n t ih => intro acc; simp [ih]

/-- Claim C9: for any graph and any unit-interval unrest assignment (and
any realization of the Gaussian noise), spread_influence produces exactly
one entry per node, in order, each entry's value computed from the input
snapshot alone (never from an already-updated neighbor) and lying in
[0,1]. -/
theorem C9_spread_influence (inf dec : ℚ) (nodes : List ℕ)
    (nbrs : ℕ → List ℕ) (states noise : ℕ → ℚ)
    (hb : ∀ i : ℕ, 0 ≤ states i ∧ states i ≤ 1) :
    ((spread_influence inf dec nodes nbrs states noise).map Prod.fst = nodes) ∧
    (∀ q ∈ spread_influence inf dec nodes nbrs states noise,
      q.2 = node_new_unrest inf dec nbrs states noise q.1 ∧ 0 ≤ q.2 ∧ q.2 ≤ 1) := by
  have hmap := spread_influence_eq_map inf dec nodes nbrs states noise
  constructor
  · rw [hmap, List.map_map]
    have hid : (Prod.fst ∘ fun i => (i, node_new_unrest inf dec nbrs states noise i)) = id := rfl
    rw [hid, List.map_id]
  · intro q hq
    rw [hmap] at hq
    rcases List.mem_map.mp hq with ⟨i, _, rfl⟩
    refine ⟨rfl, ?_⟩
    have hcl : ∀ x : ℚ, 0 ≤ social_clip x ∧ social_clip x ≤ 1 := by
      intro x
      exact clip_mem 0 1 x (by norm_num)
    unfold node_new_unrest
    by_cases hn : nbrs i = []
    · rw [if_pos hn]
      exact hcl _
    · rw [if_neg hn]
      exact hcl _

/-- Claim C9, witness: a two-node path with all unrest at 0.5, no noise. -/
theorem C9_witness :
    ((spread_influence 0.3 0.05 [0, 1]
        (fun i => if i = 0 then [1] else [0]) (fun _ => 0.5) (fun _ => 0)).map
      Prod.fst = [0, 1]) :=
  (C9_spread_influence 0.3 0.05 [0, 1]
    (fun i => if i = 0 then [1] else [0]) (fun _ => 0.5) (fun _ => 0)
    (fun _ => by norm_num)).1

/-!  ##  C10: frame effect of the labor clearing on the household list  -/

/-- markEmployed preserves the length of the household list. -/
theorem markEmployed_length (wage : ℚ) (k : ℕ) (l : List Household) :
    (markEmployed wage k l).length = l.length := by
  induction l generalizing k with
  | nil => cases k <;> rfl
  | cons h t ih =>
      cases k with
      | zero => simp [markEmployed, ih]
      | succ k => simp [markEmployed, ih]

/-- Pointwise description of markEmployed: position i is employed and paid
exactly when i falls in the employed prefix, and is otherwise only marked
unemployed. -/
theorem markEmployed_getElem (wage : ℚ) (k : ℕ) (l : List Household) (i : ℕ)
    (h0 : Household) (hget : l[i]? = some h0) :
    (markEmployed wage k l)[i]?
      = some (if i < k then { h0 with employed := true, wealth := h0.wealth + wage }
          else { h0 with employed := false }) := by
  induction l generalizing k i with
  | nil => simp at hget
  | cons h t ih =>
      cases k with
      | zero =>
          cases i with
          | zero =>
              simp only [List.getElem?_cons_zero, Option.some.injEq] at hget
              subst hget
              simp [markEmployed]
          | succ i =>
              simp only [List.getElem?_cons_succ] at hget
              simpa [markEmployed] using ih 0 i hget
      | succ k =>
          cases i with
          | zero =>
              simp only [List.getElem?_cons_zero, Option.some.injEq] at hget
              subst hget
              simp [markEmployed]
          | succ i =>
              simp only [List.getElem?_cons_succ] at hget
              simpa [markEmployed, Nat.succ_lt_succ_iff] using ih k i hget

/-- Claim C10, amended: given nonnegative aggregate labor demand, the
labor clearing returns the shuffled household list (the in-place shuffle
is the permutation hypothesis) with the first min(supply, demand)
households marked employed and paid exactly the computed wage, every other
household marked unemployed with wealth untouched, and no household's
consumption, savings or unrest modified anywhere (the updates touch only
the employed flag and wealth).  (With negative aggregate demand the claim
fails: Python's negative slice employs all but the last |demand| shuffled
households instead of none, see the counterexample.) -/
theorem C10_amended (base adj : ℚ) (tanh : ℚ → ℚ) (hs shuffled : List Household)
    (fs : List Firm) (hperm : shuffled.Perm hs) (hd : 0 ≤ laborDemand fs) :
    (clear_labor_market base adj tanh shuffled fs).2.2.1.length = shuffled.length ∧
    (∀ (i : ℕ) (h0 : Household), shuffled[i]? = some h0 →
      (i < (min (shuffled.length : ℤ) (laborDemand fs)).toNat →
        (clear_labor_market base adj tanh shuffled fs).2.2.1[i]?
          = some { h0 with
                   employed := true
                   wealth := h0.wealth + (clear_labor_market base adj tanh shuffled fs).1 }) ∧
      ((min (shuffled.length : ℤ) (laborDemand fs)).toNat ≤ i →
        (clear_labor_market base adj tanh shuffled fs).2.2.1[i]?
          = some { h0 with employed := false })) := by
  have hemp : (0 : ℤ) ≤ min (shuffled.length : ℤ) (laborDemand fs) :=
    le_min (Int.ofNat_nonneg _) hd
  have hr : (clear_labor_market base adj tanh shuffled fs).2.2.1
      = markEmployed (clear_labor_market base adj tanh shuffled fs).1
          ((pySlice shuffled (min (shuffled.length : ℤ) (laborDemand fs))).length)
          shuffled := rfl
  have hkk : (pySlice shuffled (min (shuffled.length : ℤ) (laborDemand fs))).length
      = min ((min (shuffled.length : ℤ) (laborDemand fs)).toNat) shuffled.length := by
    unfold pySlice
    rw [if_pos hemp, List.length_take]
  constructor
  · rw [hr]
    exact markEmployed_length _ _ _
  · intro i h0 hget
    have hilen : i < shuffled.length := by
      rcases List.getElem?_eq_some.mp hget with ⟨hlt, _⟩
      exact hlt
    constructor
    · intro hik
      rw [hr, hkk,
        markEmployed_getElem _ (min ((min (shuffled.length : ℤ) (laborDemand fs)).toNat)
          shuffled.length) shuffled i h0 hget,
        if_pos (lt_min hik hilen)]
    · intro hki
      have hnot : ¬ i < min ((min (shuffled.length : ℤ) (laborDemand fs)).toNat)
          shuffled.length := by
        intro hc
        exact absurd (lt_of_lt_of_le hc (min_le_left _ _)) (not_lt.mpr hki)
      rw [hr, hkk,
        markEmployed_getElem _ (min ((min (shuffled.length : ℤ) (laborDemand fs)).toNat)
          shuffled.length) shuffled i h0 hget,
        if_neg hnot]

/-- Claim C10, witness: two households, demand one, the output list keeps
its length. -/
theorem C10_witness :
    (clear_labor_market 50 0.1 tanh0 [house0, house0] [firmOneLabor]).2.2.1.length = 2 :=
  (C10_amended 50 0.1 tanh0 [house0, house0] [house0, house0] [firmOneLabor]
    (List.Perm.refl _) (by norm_num [laborDemand, firmOneLabor, FirmAgent.init])).1

/-- Claim C10, counterexample: with three households and aggregate labor
demand -2 the claimed employed prefix min(supply, demand) is empty, yet
Python's negative slice households[:-2] employs the first household and
raises its wealth by the wage — the code does not leave every household
unemployed and unpaid. -/
theorem C10_counterexample :
    (min ((List.replicate 3 house0).length : ℤ) (laborDemand [firmNegLabor])).toNat = 0 ∧
    ((clear_labor_market 50 0.1 tanh0 (List.replicate 3 house0) [firmNegLabor]).2.2.1.map
        (fun h => h.employed)) = [true, false, false] ∧
    ((clear_labor_market 50 0.1 tanh0 (List.replicate 3 house0) [firmNegLabor]).2.2.1.map
        (fun h => h.wealth)) = [150, 100, 100] ∧
    house0.wealth = 100 := by
  norm_num [clear_labor_market, laborDemand, firmNegLabor, FirmAgent.init, pySlice,
    markEmployed, assignEmployees, pyInt, tanh0, house0, List.replicate]
